import Mathlib

/-!
Shallow embedding of the turo-scraper core (src/unnamed/part_002) and proofs
about it.  Pure helpers of the script become Lean functions; network and
browser effects are abstracted as explicit oracle parameters (a per-attempt
fetch function, a per-batch quote response function, an abstract URL parser).
Times are modelled as non-negative milliseconds since the epoch, numbers from
the configuration as rationals, and JS objects keyed by listing id as
association lists in which `Object.assign` overwrites existing keys.
-/

namespace TuroScraper

/-- JS `Math.round`: round half toward positive infinity. -/
def jsRound (q : ℚ) : ℤ := ⌊q + 1/2⌋

/-! ## chunkArray and the bulk-quote merge (Quote Aggregator) -/

/-- `chunkArray` from the script: slices of `size` consecutive elements.
The JS loop `for (let i = 0; i < arr.length; i += size)` never runs for an
empty array and does not terminate for `size = 0`; callers always pass 20. -/
def chunkArray (arr : List α) (size : ℕ) : List (List α) :=
  if h : arr.isEmpty then []
  else if hs : size = 0 then []
  else arr.take size :: chunkArray (arr.drop size) size
termination_by arr.length
decreasing_by
  simp only [List.length_drop]
  have : ¬ arr = [] := by simpa [List.isEmpty_iff] using h
  have : 0 < arr.length := List.length_pos.mpr this
  omega

/-- Money field of a quote; `amount` is `Option` because the backend may
return `null` there (`q?.totalTripPrice.amount != null` in the script). -/
structure Money where
  amount : Option ℚ
deriving DecidableEq, Repr

/-- `Quote` interface of the script (the fields the core reads). -/
structure Quote where
  totalTripPrice : Money
deriving DecidableEq, Repr

/-- A JS object keyed by listing id, as an association list. -/
abbrev QuoteMap := List (ℕ × Quote)

/-- The keys of a quote map. -/
def qkeys (m : QuoteMap) : List ℕ := m.map (·.1)

/-- JS property write `obj[k] = v`: overwrite in place if the key exists,
otherwise append at the end. -/
def objSet (m : QuoteMap) (k : ℕ) (v : Quote) : QuoteMap :=
  if m.any (fun p => p.1 = k) then
    m.map (fun p => if p.1 = k then (k, v) else p)
  else m ++ [(k, v)]

/-- `Object.assign(target, src)`: write every key of `src` into `target`. -/
def objAssign (target src : QuoteMap) : QuoteMap :=
  src.foldl (fun acc p => objSet acc p.1 p.2) target

/-- The `allQuotes` accumulation loop of `scrapeSearchUrl`: fold
`Object.assign` over the per-batch responses, starting from `{}`. -/
def mergeQuotes (batchResponses : List QuoteMap) : QuoteMap :=
  batchResponses.foldl objAssign []

lemma mem_qkeys_objSet {m : QuoteMap} {k k' : ℕ} {v : Quote} :
    k' ∈ qkeys (objSet m k v) ↔ k' ∈ qkeys m ∨ k' = k := by
  unfold objSet qkeys
  by_cases h : m.any (fun p => p.1 = k)
  · simp only [h, if_true, List.map_map, List.mem_map]
    constructor
    · rintro ⟨p, hp, hpk⟩
      by_cases hk : p.1 = k
      · right; simp [Function.comp, hk] at hpk; omega
      · left
        refine ⟨p, hp, ?_⟩
        simpa [Function.comp, hk] using hpk
    · rintro (⟨p, hp, hpk⟩ | rfl)
      · refine ⟨p, hp, ?_⟩
        by_cases hk : p.1 = k <;> simp [Function.comp, hk] <;> omega
      · rw [List.any_eq_true] at h
        obtain ⟨p, hp, hpk⟩ := h
        simp only [decide_eq_true_eq] at hpk
        exact ⟨p, hp, by simp [Function.comp, hpk]⟩
  · simp [h]

lemma nodup_qkeys_objSet {m : QuoteMap} {k : ℕ} {v : Quote}
    (hm : (qkeys m).Nodup) : (qkeys (objSet m k v)).Nodup := by
  unfold objSet qkeys
  split
  · next h =>
      have : (m.map (fun p => if p.1 = k then (k, v) else p)).map (·.1)
          = m.map (·.1) := by
        rw [List.map_map]
        refine List.map_congr_left ?_
        intro p _
        by_cases hk : p.1 = k <;> simp [Function.comp, hk] <;> omega
      rw [this]
      exact hm
  · next h =>
      simp only [List.map_append, List.map_cons, List.map_nil]
      rw [List.nodup_append]
      refine ⟨hm, List.nodup_singleton _, ?_⟩
      intro a ha hb
      simp only [List.mem_singleton] at hb
      subst hb
      rw [List.any_eq_true] at h
      push_neg at h
      simp only [List.mem_map] at ha
      obtain ⟨p, hp, hpk⟩ := ha
      exact absurd (by simpa using hpk) (by simpa using h p hp)

lemma mem_qkeys_objAssign {a b : QuoteMap} {k : ℕ} :
    k ∈ qkeys (objAssign a b) ↔ k ∈ qkeys a ∨ k ∈ qkeys b := by
  induction b generalizing a with
  | nil => simp [objAssign, qkeys]
  | cons p rest ih =>
      unfold objAssign at *
      simp only [List.foldl_cons]
      rw [ih, mem_qkeys_objSet]
      simp only [qkeys, List.map_cons, List.mem_cons]
      tauto

lemma nodup_qkeys_objAssign {a b : QuoteMap} (ha : (qkeys a).Nodup) :
    (qkeys (objAssign a b)).Nodup := by
  induction b generalizing a with
  | nil => simpa [objAssign] using ha
  | cons p rest ih =>
      unfold objAssign at *
      simp only [List.foldl_cons]
      exact ih (nodup_qkeys_objSet ha)

lemma mem_qkeys_mergeQuotes {bs : List QuoteMap} {k : ℕ} :
    k ∈ qkeys (mergeQuotes bs) ↔ ∃ b ∈ bs, k ∈ qkeys b := by
  unfold mergeQuotes
  suffices h : ∀ (init : QuoteMap),
      k ∈ qkeys (bs.foldl objAssign init) ↔ k ∈ qkeys init ∨ ∃ b ∈ bs, k ∈ qkeys b by
    rw [h []]; simp [qkeys]
  induction bs with
  | nil => intro init; simp
  | cons b rest ih =>
      intro init
      simp only [List.foldl_cons]
      rw [ih, mem_qkeys_objAssign]
      simp only [List.mem_cons]
      constructor
      · rintro ((h | h) | ⟨c, hc, hk⟩)
        · exact Or.inl h
        · exact Or.inr ⟨b, Or.inl rfl, h⟩
        · exact Or.inr ⟨c, Or.inr hc, hk⟩
      · rintro (h | ⟨c, (rfl | hc), hk⟩)
        · exact Or.inl (Or.inl h)
        · exact Or.inl (Or.inr hk)
        · exact Or.inr ⟨c, hc, hk⟩

lemma nodup_qkeys_mergeQuotes (bs : List QuoteMap) :
    (qkeys (mergeQuotes bs)).Nodup := by
  unfold mergeQuotes
  suffices h : ∀ (init : QuoteMap), (qkeys init).Nodup →
      (qkeys (bs.foldl objAssign init)).Nodup by
    exact h [] (by simp [qkeys])
  induction bs with
  | nil => intro init h; simpa
  | cons b rest ih =>
      intro init h
      simp only [List.foldl_cons]
      exact ih _ (nodup_qkeys_objAssign h)

lemma chunkArray_flatten (size : ℕ) (hs : 0 < size) (arr : List α) :
    (chunkArray arr size).flatten = arr := by
  by_cases h : arr.isEmpty
  · rw [chunkArray]
    simp only [dif_pos h, List.flatten_nil]
    exact ((List.isEmpty_iff).mp h).symm
  · have hs' : ¬ size = 0 := by omega
    rw [chunkArray]
    simp only [dif_neg h, dif_neg hs', List.flatten_cons]
    rw [chunkArray_flatten size hs (arr.drop size)]
    exact List.take_append_drop size arr
termination_by arr.length
decreasing_by
  simp only [List.length_drop]
  have : ¬ arr = [] := by simpa [List.isEmpty_iff] using h
  have : 0 < arr.length := List.length_pos.mpr this
  omega

/-! ## Window Calculator (times are milliseconds since the epoch, UTC) -/

/-- `MIN_LEAD_MINUTES` constant of the script. -/
def MIN_LEAD_MINUTES : ℕ := 90

/-- `SLOT_GRANULARITY_MINUTES` constant of the script. -/
def SLOT_GRANULARITY_MINUTES : ℕ := 30

/-- `SLOT_DURATION_HOURS` constant of the script. -/
def SLOT_DURATION_HOURS : ℕ := 72

/-- `addMinutes(d, mins)`: shift a date by whole minutes.  All call sites of
the script pass a non-negative minute count. -/
def addMinutes (t : ℕ) (mins : ℕ) : ℕ := t + mins * 60000

/-- `roundDownToSlot(d, slotMinutes)`: floor the minutes-of-hour field to a
multiple of `slotMinutes` and zero the seconds and milliseconds
(`r.setMinutes(floored, 0, 0)` keeps the start of the current hour). -/
def roundDownToSlot (t : ℕ) (slotMinutes : ℕ) : ℕ :=
  t / 3600000 * 3600000 + (t / 60000 % 60) / slotMinutes * slotMinutes * 60000

/-- `baseAvailableSlot` computed once per run from `now`. -/
def baseAvailableSlot (now : ℕ) : ℕ :=
  roundDownToSlot (addMinutes now MIN_LEAD_MINUTES) SLOT_GRANULARITY_MINUTES

/-- Result of the per-slot window computation: the clamped offset/duration
the script records in `templateUrls` plus the start/end instants. -/
structure WindowOut where
  offsetUsed : ℚ
  durationUsed : ℚ
  start : ℕ
  stop : ℕ
deriving Repr

/-- The slot-branch window computation of the script (lines 302–308, and
identically 318–324 for the legacy branch): clamp the offset at 0, replace
durations below 1 hour by `SLOT_DURATION_HOURS`, then
`start = addMinutes(base, round(offset*60))` and
`end = addMinutes(start, round(duration*60))`. -/
def slotWindow (base : ℕ) (offset duration : ℚ) : WindowOut :=
  let o := if offset < 0 then 0 else offset
  let d := if duration < 1 then (SLOT_DURATION_HOURS : ℚ) else duration
  let s := addMinutes base (jsRound (o * 60)).toNat
  let e := addMinutes s (jsRound (d * 60)).toNat
  ⟨o, d, s, e⟩

lemma jsRound_natCast (n : ℕ) : jsRound (n : ℚ) = n := by
  unfold jsRound
  refine Int.floor_eq_iff.mpr ⟨?_, ?_⟩
  · push_cast; linarith
  · push_cast; linarith

lemma jsRound_nonneg {q : ℚ} (hq : 0 ≤ q) : 0 ≤ jsRound q := by
  unfold jsRound
  rw [Int.le_floor]
  push_cast
  linarith

/-! ## Capture Session retry and the Record Mapper -/

/-- One image entry of a listing. -/
structure VehicleImage where
  originalImageUrl : String
deriving DecidableEq, Repr

/-- Location data of a listing (the fields the core reads). -/
structure VehicleLocation where
  isDelivery : Bool
  locationId : Option ℤ
deriving DecidableEq, Repr

/-- `Vehicle` interface of the script (the fields the core reads). -/
structure Vehicle where
  id : ℕ
  make : String
  model : String
  year : ℕ
  images : List VehicleImage
  location : VehicleLocation
deriving DecidableEq, Repr

/-- The retry recursion of `scrapeSearchUrl`, with the network abstracted as
a per-attempt oracle `fetch` giving the parsed `vehicles` array.  Returns
the number of attempts performed and the vehicle list of the last attempt:
`if (vehicles.length === 0 && attempt < 3) return scrapeSearchUrl(page, url,
attempt + 1)`.  The result is an ordinary value, never an error. -/
def scrapeRetry (fetch : ℕ → List Vehicle) (attempt : ℕ) : ℕ × List Vehicle :=
  let vehicles := fetch attempt
  if h : vehicles.isEmpty ∧ attempt < 3 then
    let r := scrapeRetry fetch (attempt + 1)
    (r.1 + 1, r.2)
  else (1, vehicles)
termination_by 3 - attempt
decreasing_by omega

/-- One output record of the Record Mapper. -/
structure ResultRecord where
  id : ℕ
  title : String
  image : Option String
  totalQuoted : Option ℤ
  position : ℕ
deriving DecidableEq, Repr

/-- JS object read `allQuotes[v.id]`: the value of the (unique) key, if any. -/
def lookupQuote (m : QuoteMap) (k : ℕ) : Option Quote :=
  (m.find? (fun p => p.1 = k)).map (·.2)

/-- The `vehicles.map` at the end of `scrapeSearchUrl`: title from year,
make and model; first image URL or null; rounded total-trip amount when
present, null otherwise; `position` via
`vehicles.findIndex(x => x.id === v.id) + 1`. -/
def mapResults (vehicles : List Vehicle) (allQuotes : QuoteMap) : List ResultRecord :=
  vehicles.map fun v =>
    { id := v.id
      title := toString v.year ++ " " ++ v.make ++ " " ++ v.model
      image := v.images.head?.map (·.originalImageUrl)
      totalQuoted :=
        match lookupQuote allQuotes v.id with
        | some q =>
            match q.totalTripPrice.amount with
            | some a => some (jsRound a)
            | none => none
        | none => none
      position := vehicles.findIdx (fun x => x.id = v.id) + 1 }

/-! ## URL Builder: search params, date formatting, strip and inject -/

/-- The ordered multiset of query parameters of a parsed URL. -/
abbrev Params := List (String × String)

/-- Number of entries with the given key. -/
def countKey (ps : Params) (k : String) : ℕ := ps.countP (fun p => p.1 == k)

/-- Value of the first entry with the given key (`searchParams.get`). -/
def getFirst (ps : Params) (k : String) : Option String :=
  (ps.find? (fun p => p.1 == k)).map (·.2)

/-- The fixed list of date keys deleted by `cleanUrlRemoveDateParams`. -/
def dateParamKeys : List String :=
  ["startDate", "startTime", "endDate", "endTime", "monthlyStartDate", "monthlyEndDate"]

/-- `searchParams.delete(k)`: remove every entry with that key. -/
def deleteParam (ps : Params) (k : String) : Params :=
  ps.filter (fun p => !(p.1 == k))

/-- Second phase of `cleanUrlRemoveDateParams`: iterate over a snapshot of
the entries and delete the key of every empty-valued entry; an entry
survives exactly when no entry shares its key with an empty value. -/
def removeEmptyValuedKeys (ps : Params) : Params :=
  ps.filter (fun p => !(ps.any (fun q => q.1 == p.1 && q.2 == "")))

/-- The parameter effect of `cleanUrlRemoveDateParams` on a parsed URL:
delete the six date keys, then delete keys with an empty value. -/
def cleanParams (ps : Params) : Params :=
  removeEmptyValuedKeys (dateParamKeys.foldl deleteParam ps)

/-- `searchParams.set(k, v)`: replace the value of the first entry with the
key and drop the other entries with it, or append when the key is absent. -/
def setParam : Params → String → String → Params
  | [], k, v => [(k, v)]
  | p :: rest, k, v =>
      if p.1 == k then (k, v) :: rest.filter (fun q => !(q.1 == k))
      else p :: setParam rest k v

/-- Calendar/clock view of a date in the run's time zone; `month` carries
the script's `getMonth() + 1` (1-based). -/
structure DateTime where
  year : ℕ
  month : ℕ
  day : ℕ
  hour : ℕ
  minute : ℕ
deriving DecidableEq, Repr

/-- `pad2`: decimal string left-padded with zeros to two characters. -/
def pad2 (n : ℕ) : String :=
  let s := toString n
  if s.length < 2 then "0" ++ s else s

/-- `formatDate`: zero-padded `MM/DD/YYYY`. -/
def formatDate (d : DateTime) : String :=
  pad2 d.month ++ "/" ++ pad2 d.day ++ "/" ++ toString d.year

/-- `formatTime`: zero-padded 24-hour `HH:MM`. -/
def formatTime (d : DateTime) : String :=
  pad2 d.hour ++ ":" ++ pad2 d.minute

/-- The parameter effect of `addDateParamsToUrl`: set the four date/time
keys from the window bounds. -/
def addDateParams (ps : Params) (start stop : DateTime) : Params :=
  setParam (setParam (setParam (setParam ps
    "startDate" (formatDate start))
    "startTime" (formatTime start))
    "endDate" (formatDate stop))
    "endTime" (formatTime stop)

/-- A successfully parsed URL, reduced to the data the core manipulates. -/
structure UrlModel where
  params : Params
deriving Repr

/-- `cleanUrlRemoveDateParams` at the string level, with `new URL(...)`
abstracted as a `parse` oracle and `u.toString()` as `ser`.  The `Bool`
records whether the warning diagnostic was emitted; the `catch` branch
returns the raw input unchanged. -/
def cleanUrlRemoveDateParams (parse : String → Option UrlModel)
    (ser : UrlModel → String) (rawUrl : String) : String × Bool :=
  match parse rawUrl with
  | some u => (ser ⟨cleanParams u.params⟩, false)
  | none => (rawUrl, true)

/-- `addDateParamsToUrl` at the string level, same conventions. -/
def addDateParamsToUrl (parse : String → Option UrlModel)
    (ser : UrlModel → String) (baseUrl : String) (start stop : DateTime) :
    String × Bool :=
  match parse baseUrl with
  | some u => (ser ⟨addDateParams u.params start stop⟩, false)
  | none => (baseUrl, true)

/-! ## Slot Registry and template expansion -/

/-- One entry of a parsed `slots` list: a named slot id or a legacy number. -/
inductive SlotEntry
  | str (s : String)
  | num (n : ℤ)
deriving DecidableEq, Repr

/-- The dynamic shapes the `slots` field of a template document can take. -/
inductive SlotsField
  | arr (l : List SlotEntry)
  | strv (s : String)
  | intv (n : ℤ)
  | absent
deriving Repr

/-- `parseInt(a, 10)` on a string of decimal digits. -/
def jsParseInt (s : String) : ℤ :=
  (s.foldl (fun acc c => acc * 10 + (c.toNat - 48)) 0 : ℕ)

/-- `parseSlotsField`: arrays pass through unchanged (they may mix strings
and numbers); a comma-separated string splits into trimmed non-empty
pieces, read as numbers when all pieces are decimal digit runs; a lone
integer becomes a one-element list; anything else is `undefined`. -/
def parseSlotsField : SlotsField → Option (List SlotEntry)
  | .arr l => some l
  | .strv s =>
      let pieces := ((s.splitOn ",").map (fun a => a.trim)).filter (fun a => !(a == ""))
      let areNumbers := pieces.all (fun a => a.toList.all Char.isDigit)
      if areNumbers then some (pieces.map (fun a => .num (jsParseInt a)))
      else some (pieces.map .str)
  | .intv n => some [.num n]
  | .absent => none

/-- The string entries of a parsed slots list, in order. -/
def strEntries (l : List SlotEntry) : List String :=
  l.filterMap (fun e => match e with | .str s => some s | .num _ => none)

/-- The numeric (legacy) entries of a parsed slots list, in order. -/
def numEntries (l : List SlotEntry) : List ℤ :=
  l.filterMap (fun e => match e with | .num n => some n | .str _ => none)

/-- JS truthiness of the `slotId` field: `null` and `""` are falsy. -/
def truthySlotId : Option String → List String
  | some s => if s = "" then [] else [s]
  | none => []

/-- An active template as loaded from the store (after `parseSlotsField`). -/
structure Template where
  id : String
  label : Option String
  url : String
  slotId : Option String
  slotsIds : Option (List SlotEntry)
  slot : Option ℤ
  offsetHours : Option ℚ
  durationHours : Option ℚ
deriving Repr

/-- A named slot definition after `getActiveSlotsById` applied defaults. -/
structure SlotOption where
  offsetHours : ℚ
  durationHours : ℚ
deriving Repr

/-- One entry of `templateUrls`. -/
structure TemplateUrl where
  slotId : Option String
  slotLegacy : Option ℤ
  docId : String
  url : String
  label : Option String
  offset : Option ℚ
  duration : Option ℚ
  raw : Bool
deriving Repr

/-- Calendar/clock fields of an epoch-millisecond instant (UTC), via the
standard Gregorian civil-from-days conversion; used only to feed the
formatting functions when building final URLs. -/
def msToDateTime (t : ℕ) : DateTime :=
  let days := t / 86400000
  let msOfDay := t % 86400000
  let z := days + 719468
  let era := z / 146097
  let doe := z % 146097
  let yoe := (doe - doe / 1460 + doe / 36524 - doe / 146096) / 365
  let y := yoe + era * 400
  let doy := doe - (365 * yoe + yoe / 4 - yoe / 100)
  let mp := (5 * doy + 2) / 153
  let d := doy - (153 * mp + 2) / 5 + 1
  let m := if mp < 10 then mp + 3 else mp - 9
  let y' := if m ≤ 2 then y + 1 else y
  { year := y', month := m, day := d
    hour := msOfDay / 3600000, minute := msOfDay % 3600000 / 60000 }

/-- `SLOT_OFFSETS` of the script: an empty legacy offset table, so every
lookup falls back to 0. -/
def SLOT_OFFSETS : ℤ → Option ℚ := fun _ => none

/-- The per-template expansion loop of the run (lines 267–331): resolve
the slot field, emit one raw instance when no slot information exists at
all, otherwise strip the base URL once and emit one window instance per
named slot id followed by one per legacy slot number. -/
def expandTemplate (parse : String → Option UrlModel) (ser : UrlModel → String)
    (slotOptions : String → Option SlotOption) (base : ℕ) (t : Template) :
    List TemplateUrl :=
  let fromList : List String × List ℤ :=
    match t.slotsIds with
    | some l =>
        if l.isEmpty then ([], [])
        else
          let strs := strEntries l
          let nums := numEntries l
          if !strs.isEmpty then (strs, [])
          else if !nums.isEmpty then ([], nums)
          else ([], [])
    | none => ([], [])
  let slotsToCreateIds :=
    if fromList.1.isEmpty then truthySlotId t.slotId else fromList.1
  let legacySlotNumbers := fromList.2
  let hasAnySlot :=
    !slotsToCreateIds.isEmpty || !legacySlotNumbers.isEmpty || t.slot.isSome
  if hasAnySlot then
    let cleanedBase := (cleanUrlRemoveDateParams parse ser t.url).1
    let named := slotsToCreateIds.map fun sid =>
      let so := slotOptions sid
      let offset0 := t.offsetHours.getD ((so.map (·.offsetHours)).getD 0)
      let duration0 :=
        t.durationHours.getD ((so.map (·.durationHours)).getD (SLOT_DURATION_HOURS : ℚ))
      let w := slotWindow base offset0 duration0
      { slotId := some sid, slotLegacy := none, docId := t.id
        url := (addDateParamsToUrl parse ser cleanedBase
                  (msToDateTime w.start) (msToDateTime w.stop)).1
        label := t.label, offset := some w.offsetUsed
        duration := some w.durationUsed, raw := false : TemplateUrl }
    let legacy := legacySlotNumbers.map fun n =>
      let offset0 := t.offsetHours.getD ((SLOT_OFFSETS n).getD 0)
      let duration0 := t.durationHours.getD (SLOT_DURATION_HOURS : ℚ)
      let w := slotWindow base offset0 duration0
      { slotId := none, slotLegacy := some n, docId := t.id
        url := (addDateParamsToUrl parse ser cleanedBase
                  (msToDateTime w.start) (msToDateTime w.stop)).1
        label := t.label, offset := some w.offsetUsed
        duration := some w.durationUsed, raw := false : TemplateUrl }
    named ++ legacy
  else
    [{ slotId := none, slotLegacy := none, docId := t.id, url := t.url
       label := t.label, offset := none, duration := none, raw := true }]

/-! ## Claim theorems -/

/-- Claim C1: partitioning any listing array into batches of 20 and merging
each batch's returned quote map into one accumulator yields a table whose
key set is exactly the set of listing ids present in the per-batch quote
responses, each id appearing at most once, and the batches concatenate back
to the original array: batching neither duplicates nor drops ids for any
length N. -/
theorem C1_batch_merge_key_set (vehicles : List Vehicle)
    (resp : List Vehicle → QuoteMap) :
    (qkeys (mergeQuotes ((chunkArray vehicles 20).map resp))).Nodup ∧
    (∀ k, k ∈ qkeys (mergeQuotes ((chunkArray vehicles 20).map resp)) ↔
      ∃ b ∈ chunkArray vehicles 20, k ∈ qkeys (resp b)) ∧
    (chunkArray vehicles 20).flatten = vehicles := by
  refine ⟨nodup_qkeys_mergeQuotes _, ?_, chunkArray_flatten 20 (by omega) vehicles⟩
  intro k
  rw [mem_qkeys_mergeQuotes]
  constructor
  · rintro ⟨m, hm, hk⟩
    rw [List.mem_map] at hm
    obtain ⟨b, hb, rfl⟩ := hm
    exact ⟨b, hb, hk⟩
  · rintro ⟨b, hb, hk⟩
    exact ⟨resp b, List.mem_map_of_mem _ hb, hk⟩

/-- Claim C2: for a slot-resolved window instance, the computed window
satisfies `end - start = round(durationHours * 60)` minutes exactly — for
any valid (at least one hour) duration, the window is exactly that many
hours, measured in whole minutes (60000 ms each). -/
theorem C2_window_duration_exact (base : ℕ) (offset duration : ℚ)
    (hd : 1 ≤ duration) :
    ((slotWindow base offset duration).stop : ℤ)
        - ((slotWindow base offset duration).start : ℤ)
      = jsRound (duration * 60) * 60000 := by
  have hd' : ¬ duration < 1 := by linarith
  have hnn : 0 ≤ jsRound (duration * 60) := jsRound_nonneg (by nlinarith)
  unfold slotWindow addMinutes
  simp only [hd', if_false]
  push_cast [Int.toNat_of_nonneg hnn]
  ring

/-- Witness for C2 at `base = 0`, `offset = 0`, `duration = 2`. -/
theorem C2_witness :
    ((slotWindow 0 0 2).stop : ℤ) - ((slotWindow 0 0 2).start : ℤ)
      = jsRound (2 * 60) * 60000 :=
  C2_window_duration_exact 0 0 2 (by norm_num)

/-- Claim C4: a capture session whose parsed listing count is zero on every
attempt is attempted exactly 3 times, never more, and returns the empty
list as a normal value (the recursion is bounded by the attempt counter
reaching 3). -/
theorem C4_retry_exactly_three (fetch : ℕ → List Vehicle)
    (h : ∀ n, fetch n = []) : scrapeRetry fetch 1 = (3, []) := by
  have h3 : scrapeRetry fetch 3 = (1, []) := by
    rw [scrapeRetry]
    simp [h 3]
  have h2 : scrapeRetry fetch 2 = (2, []) := by
    rw [scrapeRetry]
    simp [h 2, h3]
  rw [scrapeRetry]
  simp [h 1, h2]

/-- Witness for C4 with the constantly-empty fetch oracle. -/
theorem C4_witness : scrapeRetry (fun _ => []) 1 = (3, []) :=
  C4_retry_exactly_three (fun _ => []) (fun _ => rfl)

/-- Claim C8 counterexample: the claim says positive durations are used
unchanged, but the code clamps with `duration < 1`, so the positive
duration 1/2 is replaced by the 72-hour default. -/
theorem C8_counterexample :
    (0 : ℚ) < 1/2 ∧ (slotWindow 0 0 (1/2)).durationUsed = 72 ∧
      ¬ ((slotWindow 0 0 (1/2)).durationUsed = 1/2) := by
  refine ⟨by norm_num, ?_, ?_⟩ <;>
    · simp only [slotWindow]
      norm_num [SLOT_DURATION_HOURS]

/-- Claim C8 as amended: negative offsets are clamped to 0 and non-negative
offsets are used unchanged; durations below one hour (not merely
non-positive ones) are replaced by the 72-hour default, and durations of at
least one hour are used unchanged. -/
theorem C8_clamping_amended (base : ℕ) (offset duration : ℚ) :
    (offset < 0 → (slotWindow base offset duration).offsetUsed = 0) ∧
    (0 ≤ offset → (slotWindow base offset duration).offsetUsed = offset) ∧
    (duration < 1 → (slotWindow base offset duration).durationUsed = 72) ∧
    (1 ≤ duration → (slotWindow base offset duration).durationUsed = duration) := by
  refine ⟨fun h => ?_, fun h => ?_, fun h => ?_, fun h => ?_⟩ <;>
    simp only [slotWindow]
  · rw [if_pos h]
  · rw [if_neg (not_lt.mpr h)]
  · rw [if_pos h]
    norm_num [SLOT_DURATION_HOURS]
  · rw [if_neg (not_lt.mpr (by linarith))]

/-- Witness for C8 at `offset = -1`, `duration = 1/2`. -/
theorem C8_witness :
    (slotWindow 0 (-1) (1/2)).offsetUsed = 0 ∧
      (slotWindow 0 (-1) (1/2)).durationUsed = 72 :=
  ⟨(C8_clamping_amended 0 (-1) (1/2)).1 (by norm_num),
   (C8_clamping_amended 0 (-1) (1/2)).2.2.1 (by norm_num)⟩

lemma jsRound_zero : jsRound 0 = 0 := by
  have h := jsRound_natCast 0
  simpa using h

lemma jsRound_nat_mul_sixty (k : ℕ) : jsRound ((k : ℚ) * 60) = ((k * 60 : ℕ) : ℤ) := by
  have h : ((k : ℚ) * 60) = ((k * 60 : ℕ) : ℚ) := by push_cast; ring
  rw [h, jsRound_natCast]

/-- Claim C3 counterexample: at `now = 60000` ms (one minute past the
epoch) with offset 0, the computed start is `now + 89` minutes — one
minute short of `now + minLeadMinutes`, because the lead-shifted candidate
is floored down to the 30-minute granularity. -/
theorem C3_counterexample :
    ¬ (addMinutes 60000 MIN_LEAD_MINUTES
        ≤ (slotWindow (baseAvailableSlot 60000) 0 72).start) := by
  have h1 : baseAvailableSlot 60000 = 5400000 := by decide
  have h2 : (slotWindow (baseAvailableSlot 60000) 0 72).start = 5400000 := by
    rw [h1]
    show addMinutes 5400000 (jsRound ((if (0:ℚ) < 0 then (0:ℚ) else 0) * 60)).toNat
        = 5400000
    rw [if_neg (lt_irrefl (0:ℚ)), zero_mul, jsRound_zero]
    rfl
  rw [h2]
  decide

/-- Claim C3 as amended: for every `now` and every non-negative integer
`offsetHours`, the computed window start exceeds
`now + (minLeadMinutes - granularityMinutes)` (the original
`start ≥ now + minLeadMinutes` bound fails because the candidate is floored
down by up to one granularity step), and start is minute-aligned to the
granularity: milliseconds-of-minute zero and minutes-of-hour a multiple of
30. -/
theorem C3_start_bound_amended (now k : ℕ) (duration : ℚ) :
    addMinutes now (MIN_LEAD_MINUTES - SLOT_GRANULARITY_MINUTES)
        < (slotWindow (baseAvailableSlot now) (k : ℚ) duration).start ∧
    (slotWindow (baseAvailableSlot now) (k : ℚ) duration).start % 60000 = 0 ∧
    ((slotWindow (baseAvailableSlot now) (k : ℚ) duration).start / 60000 % 60)
        % SLOT_GRANULARITY_MINUTES = 0 := by
  have hstart : (slotWindow (baseAvailableSlot now) (k : ℚ) duration).start
      = baseAvailableSlot now + k * 60 * 60000 := by
    show addMinutes (baseAvailableSlot now)
        (jsRound ((if (k:ℚ) < 0 then (0:ℚ) else (k:ℚ)) * 60)).toNat = _
    rw [if_neg (not_lt.mpr (by positivity)), jsRound_nat_mul_sixty k,
      Int.toNat_natCast]
    rfl
  rw [hstart]
  unfold baseAvailableSlot roundDownToSlot addMinutes MIN_LEAD_MINUTES
    SLOT_GRANULARITY_MINUTES
  refine ⟨?_, ?_, ?_⟩ <;> omega

/-- Claim C9: on any input string the URL parser rejects, both the strip
and the inject helpers return the input string unchanged and emit the
warning diagnostic, as total functions (the `catch` branch): a malformed
template URL never aborts the run. -/
theorem C9_fails_open (parse : String → Option UrlModel)
    (ser : UrlModel → String) (rawUrl : String) (s e : DateTime)
    (h : parse rawUrl = none) :
    cleanUrlRemoveDateParams parse ser rawUrl = (rawUrl, true) ∧
    addDateParamsToUrl parse ser rawUrl s e = (rawUrl, true) := by
  unfold cleanUrlRemoveDateParams addDateParamsToUrl
  rw [h]
  exact ⟨rfl, rfl⟩

/-- Witness for C9 with a parser that rejects everything. -/
theorem C9_witness :
    cleanUrlRemoveDateParams (fun _ => none) (fun _ => "") "::bad" = ("::bad", true) ∧
    addDateParamsToUrl (fun _ => none) (fun _ => "") "::bad"
      ⟨2025, 1, 2, 3, 4⟩ ⟨2025, 1, 5, 6, 7⟩ = ("::bad", true) :=
  C9_fails_open (fun _ => none) (fun _ => "") "::bad"
    ⟨2025, 1, 2, 3, 4⟩ ⟨2025, 1, 5, 6, 7⟩ rfl

/-- Claim C7: a template whose slot field is entirely absent (no parsed
slots list, no truthy `slotId`, no legacy `slot` number) expands to
exactly one raw window instance whose URL is the template's original URL
unmodified — no stripping or injection is applied and no offset, duration
or window is computed for it. -/
theorem C7_raw_template (parse : String → Option UrlModel)
    (ser : UrlModel → String) (slotOptions : String → Option SlotOption)
    (base : ℕ) (t : Template) (h1 : t.slotsIds = none) (h2 : t.slotId = none)
    (h3 : t.slot = none) :
    expandTemplate parse ser slotOptions base t
      = [{ slotId := none, slotLegacy := none, docId := t.id, url := t.url,
           label := t.label, offset := none, duration := none, raw := true }] := by
  unfold expandTemplate
  rw [h1, h2, h3]
  simp [truthySlotId]

/-- Witness for C7 on a concrete slotless template. -/
theorem C7_witness :
    expandTemplate (fun _ => none) (fun _ => "") (fun _ => none) 0
      { id := "t1", label := none, url := "https://turo.example/search",
        slotId := none, slotsIds := none, slot := none,
        offsetHours := none, durationHours := none }
      = [{ slotId := none, slotLegacy := none, docId := "t1",
           url := "https://turo.example/search", label := none,
           offset := none, duration := none, raw := true }] :=
  C7_raw_template _ _ _ _ _ rfl rfl rfl

/-- Claim C5: the Record Mapper produces one record per listing in the
original input order; each record carries `title = "<year> <make> <model>"`,
the first image URL or none, the rounded total-trip amount exactly when the
merged quote table holds a numeric amount for the listing's id (none
otherwise), and `position` = 1 + the index of the first occurrence of the
listing's id in the original listing order. -/
theorem C5_record_mapper (vehicles : List Vehicle) (qm : QuoteMap)
    (i : ℕ) (hi : i < vehicles.length) :
    (mapResults vehicles qm).length = vehicles.length ∧
    ∃ v r, vehicles[i]? = some v ∧ (mapResults vehicles qm)[i]? = some r ∧
      r.id = v.id ∧
      r.title = toString v.year ++ " " ++ v.make ++ " " ++ v.model ∧
      r.image = v.images.head?.map (·.originalImageUrl) ∧
      r.totalQuoted
        = ((lookupQuote qm v.id).bind (fun q => q.totalTripPrice.amount)).map jsRound ∧
      ∃ j, j < vehicles.length ∧ r.position = j + 1 ∧
        (∃ vj, vehicles[j]? = some vj ∧ vj.id = v.id) ∧
        (∀ l, l < j → ∀ vl, vehicles[l]? = some vl → vl.id ≠ v.id) := by
  have hlen : (mapResults vehicles qm).length = vehicles.length := by
    unfold mapResults
    exact List.length_map _ _
  refine ⟨hlen, ?_⟩
  have hri : i < (mapResults vehicles qm).length := by omega
  refine ⟨vehicles[i], (mapResults vehicles qm)[i],
    List.getElem?_eq_getElem hi, List.getElem?_eq_getElem hri, ?_⟩
  have hmap : (mapResults vehicles qm)[i]
      = { id := vehicles[i].id
          title := toString vehicles[i].year ++ " " ++ vehicles[i].make
            ++ " " ++ vehicles[i].model
          image := vehicles[i].images.head?.map (·.originalImageUrl)
          totalQuoted :=
            match lookupQuote qm vehicles[i].id with
            | some q =>
                match q.totalTripPrice.amount with
                | some a => some (jsRound a)
                | none => none
            | none => none
          position := vehicles.findIdx (fun x => x.id = vehicles[i].id) + 1 } := by
    unfold mapResults
    rw [List.getElem_map]
  rw [hmap]
  refine ⟨rfl, rfl, rfl, ?_, ?_⟩
  · cases hq : lookupQuote qm vehicles[i].id with
    | none => simp
    | some q =>
        dsimp only
        cases ha : q.totalTripPrice.amount with
        | none => simp [ha]
        | some a => simp [ha]
  · have hex : ∃ x ∈ vehicles, (fun x => decide (x.id = vehicles[i].id)) x = true :=
      ⟨vehicles[i], List.getElem_mem hi, by simp⟩
    have hjlt := List.findIdx_lt_length_of_exists hex
    refine ⟨vehicles.findIdx (fun x => decide (x.id = vehicles[i].id)), hjlt, rfl,
      ⟨vehicles[vehicles.findIdx (fun x => decide (x.id = vehicles[i].id))],
        List.getElem?_eq_getElem hjlt, ?_⟩, ?_⟩
    · have := List.findIdx_getElem (w := hjlt)
      simpa using this
    · intro l hl vl hvl
      have hlv : l < vehicles.length := by omega
      have := List.not_of_lt_findIdx hl
      rw [List.getElem?_eq_getElem hlv] at hvl
      cases hvl
      simpa using this

/-- Witness for C5 on the spec's example: two listings, a quote of 150.4
for the first one only. -/
theorem C5_witness :
    (mapResults
        [{ id := 1, make := "Mk", model := "Md", year := 2020, images := [],
           location := { isDelivery := false, locationId := none } },
         { id := 2, make := "Mk2", model := "Md2", year := 2021, images := [],
           location := { isDelivery := false, locationId := none } }]
        [(1, { totalTripPrice := { amount := some (752/5) } })]).length = 2 ∧
    ∃ v r,
      ([{ id := 1, make := "Mk", model := "Md", year := 2020, images := [],
          location := { isDelivery := false, locationId := none } },
        { id := 2, make := "Mk2", model := "Md2", year := 2021, images := [],
          location := { isDelivery := false, locationId := none } }]
        : List Vehicle)[0]? = some v ∧
      (mapResults
        [{ id := 1, make := "Mk", model := "Md", year := 2020, images := [],
           location := { isDelivery := false, locationId := none } },
         { id := 2, make := "Mk2", model := "Md2", year := 2021, images := [],
           location := { isDelivery := false, locationId := none } }]
        [(1, { totalTripPrice := { amount := some (752/5) } })])[0]? = some r ∧
      r.id = v.id ∧
      r.title = toString v.year ++ " " ++ v.make ++ " " ++ v.model ∧
      r.image = v.images.head?.map (·.originalImageUrl) ∧
      r.totalQuoted
        = ((lookupQuote [(1, { totalTripPrice := { amount := some (752/5) } })]
            v.id).bind (fun q => q.totalTripPrice.amount)).map jsRound ∧
      ∃ j,
        j < ([{ id := 1, make := "Mk", model := "Md", year := 2020, images := [],
                location := { isDelivery := false, locationId := none } },
              { id := 2, make := "Mk2", model := "Md2", year := 2021, images := [],
                location := { isDelivery := false, locationId := none } }]
              : List Vehicle).length ∧
        r.position = j + 1 ∧
        (∃ vj,
          ([{ id := 1, make := "Mk", model := "Md", year := 2020, images := [],
              location := { isDelivery := false, locationId := none } },
            { id := 2, make := "Mk2", model := "Md2", year := 2021, images := [],
              location := { isDelivery := false, locationId := none } }]
            : List Vehicle)[j]? = some vj ∧ vj.id = v.id) ∧
        (∀ l, l < j → ∀ vl,
          ([{ id := 1, make := "Mk", model := "Md", year := 2020, images := [],
              location := { isDelivery := false, locationId := none } },
            { id := 2, make := "Mk2", model := "Md2", year := 2021, images := [],
              location := { isDelivery := false, locationId := none } }]
            : List Vehicle)[l]? = some vl → vl.id ≠ v.id) :=
  C5_record_mapper _ _ 0 (by norm_num)

lemma countKey_deleteParam_self (ps : Params) (k : String) :
    countKey (deleteParam ps k) k = 0 := by
  unfold countKey deleteParam
  rw [List.countP_eq_zero]
  intro p hp
  rw [List.mem_filter] at hp
  simpa using hp.2

lemma countKey_deleteParam_le (ps : Params) (k k' : String) :
    countKey (deleteParam ps k') k ≤ countKey ps k := by
  unfold countKey deleteParam
  rw [List.countP_filter]
  exact List.countP_mono_left (fun p _ h => by
    rw [Bool.and_eq_true] at h
    exact h.1)

lemma countKey_foldl_deleteParam_le (ks : List String) (ps : Params) (k : String) :
    countKey (ks.foldl deleteParam ps) k ≤ countKey ps k := by
  induction ks generalizing ps with
  | nil => simp
  | cons k0 ks ih =>
      simp only [List.foldl_cons]
      exact le_trans (ih _) (countKey_deleteParam_le ps k k0)

lemma countKey_foldl_deleteParam_of_mem (ks : List String) (ps : Params)
    (k : String) (hk : k ∈ ks) : countKey (ks.foldl deleteParam ps) k = 0 := by
  induction ks generalizing ps with
  | nil => cases hk
  | cons k0 ks ih =>
      simp only [List.foldl_cons]
      rcases List.mem_cons.mp hk with rfl | hk'
      · have h0 := countKey_deleteParam_self ps k
        have hle := countKey_foldl_deleteParam_le ks (deleteParam ps k) k
        omega
      · exact ih _ hk'

lemma countKey_removeEmpty_le (ps : Params) (k : String) :
    countKey (removeEmptyValuedKeys ps) k ≤ countKey ps k := by
  unfold countKey removeEmptyValuedKeys
  rw [List.countP_filter]
  exact List.countP_mono_left (fun p _ h => by
    rw [Bool.and_eq_true] at h
    exact h.1)

lemma countKey_cleanParams_dateKey (ps : Params) (k : String)
    (hk : k ∈ dateParamKeys) : countKey (cleanParams ps) k = 0 := by
  unfold cleanParams
  have h1 := countKey_foldl_deleteParam_of_mem dateParamKeys ps k hk
  have h2 := countKey_removeEmpty_le (dateParamKeys.foldl deleteParam ps) k
  omega

lemma setParam_of_countKey_zero (ps : Params) (k v : String)
    (h : countKey ps k = 0) : setParam ps k v = ps ++ [(k, v)] := by
  induction ps with
  | nil => rfl
  | cons p rest ih =>
      unfold countKey at h
      rw [List.countP_cons] at h
      by_cases hp : (p.1 == k) = true
      · simp [hp] at h
      · unfold setParam
        rw [if_neg hp, ih (by unfold countKey; omega)]
        simp

lemma countKey_append (ps qs : Params) (k : String) :
    countKey (ps ++ qs) k = countKey ps k + countKey qs k := by
  unfold countKey
  exact List.countP_append _ _ _

lemma countKey_single (k v k' : String) :
    countKey [(k, v)] k' = if (k == k') = true then 1 else 0 := by
  unfold countKey
  rw [List.countP_cons]
  simp [List.countP_nil]

lemma getFirst_append_right (ps qs : Params) (k : String)
    (h : countKey ps k = 0) : getFirst (ps ++ qs) k = getFirst qs k := by
  unfold getFirst
  rw [List.find?_append]
  have hn : ps.find? (fun p => p.1 == k) = none := by
    rw [List.find?_eq_none]
    intro x hx
    unfold countKey at h
    rw [List.countP_eq_zero] at h
    exact h x hx
  rw [hn]
  rfl

/-- Claim C6 counterexample: applying strip after inject deletes the four
date keys again, so the composition `strip(inject(strip(url), s, e))` holds
zero `startDate` parameters, not exactly one. -/
theorem C6_counterexample :
    ¬ (countKey (cleanParams (addDateParams (cleanParams [("loc", "sf")])
          ⟨2025, 1, 2, 3, 4⟩ ⟨2025, 1, 5, 6, 7⟩)) "startDate" = 1) := by
  decide

/-- Claim C6 as amended: the outer strip must be dropped — for every parsed
URL parameter list, `inject(strip(url), s, e)` contains exactly one
`startDate`, `startTime`, `endDate` and `endTime` parameter, whose values
are the zero-padded `MM/DD/YYYY` rendering of s/e's dates and the 24-hour
`HH:MM` rendering of their times. -/
theorem C6_roundtrip_amended (ps : Params) (s e : DateTime) :
    countKey (addDateParams (cleanParams ps) s e) "startDate" = 1 ∧
    getFirst (addDateParams (cleanParams ps) s e) "startDate" = some (formatDate s) ∧
    countKey (addDateParams (cleanParams ps) s e) "startTime" = 1 ∧
    getFirst (addDateParams (cleanParams ps) s e) "startTime" = some (formatTime s) ∧
    countKey (addDateParams (cleanParams ps) s e) "endDate" = 1 ∧
    getFirst (addDateParams (cleanParams ps) s e) "endDate" = some (formatDate e) ∧
    countKey (addDateParams (cleanParams ps) s e) "endTime" = 1 ∧
    getFirst (addDateParams (cleanParams ps) s e) "endTime" = some (formatTime e) := by
  have hc1 : countKey (cleanParams ps) "startDate" = 0 :=
    countKey_cleanParams_dateKey ps _ (by simp [dateParamKeys])
  have hc2 : countKey (cleanParams ps) "startTime" = 0 :=
    countKey_cleanParams_dateKey ps _ (by simp [dateParamKeys])
  have hc3 : countKey (cleanParams ps) "endDate" = 0 :=
    countKey_cleanParams_dateKey ps _ (by simp [dateParamKeys])
  have hc4 : countKey (cleanParams ps) "endTime" = 0 :=
    countKey_cleanParams_dateKey ps _ (by simp [dateParamKeys])
  have e1 : setParam (cleanParams ps) "startDate" (formatDate s)
      = cleanParams ps ++ [("startDate", formatDate s)] :=
    setParam_of_countKey_zero _ _ _ hc1
  have k2 : countKey (cleanParams ps ++ [("startDate", formatDate s)]) "startTime" = 0 := by
    rw [countKey_append, hc2, countKey_single]
    decide
  have e2 : setParam (cleanParams ps ++ [("startDate", formatDate s)])
      "startTime" (formatTime s)
      = cleanParams ps ++ [("startDate", formatDate s)]
          ++ [("startTime", formatTime s)] :=
    setParam_of_countKey_zero _ _ _ k2
  have k3 : countKey (cleanParams ps ++ [("startDate", formatDate s)]
      ++ [("startTime", formatTime s)]) "endDate" = 0 := by
    rw [countKey_append, countKey_append, hc3, countKey_single, countKey_single]
    decide
  have e3 : setParam (cleanParams ps ++ [("startDate", formatDate s)]
      ++ [("startTime", formatTime s)]) "endDate" (formatDate e)
      = cleanParams ps ++ [("startDate", formatDate s)]
          ++ [("startTime", formatTime s)] ++ [("endDate", formatDate e)] :=
    setParam_of_countKey_zero _ _ _ k3
  have k4 : countKey (cleanParams ps ++ [("startDate", formatDate s)]
      ++ [("startTime", formatTime s)] ++ [("endDate", formatDate e)])
      "endTime" = 0 := by
    rw [countKey_append, countKey_append, countKey_append, hc4,
      countKey_single, countKey_single, countKey_single]
    decide
  have e4 : setParam (cleanParams ps ++ [("startDate", formatDate s)]
      ++ [("startTime", formatTime s)] ++ [("endDate", formatDate e)])
      "endTime" (formatTime e)
      = cleanParams ps ++ [("startDate", formatDate s)]
          ++ [("startTime", formatTime s)] ++ [("endDate", formatDate e)]
          ++ [("endTime", formatTime e)] :=
    setParam_of_countKey_zero _ _ _ k4
  have hout : addDateParams (cleanParams ps) s e
      = cleanParams ps
          ++ [("startDate", formatDate s), ("startTime", formatTime s),
              ("endDate", formatDate e), ("endTime", formatTime e)] := by
    unfold addDateParams
    rw [e1, e2, e3, e4]
    simp
  rw [hout]
  refine ⟨?_, ?_, ?_, ?_, ?_, ?_, ?_, ?_⟩
  · rw [countKey_append, hc1]
    simp [countKey, List.countP_cons, List.countP_nil]
  · rw [getFirst_append_right _ _ _ hc1]
    simp [getFirst, List.find?_cons]
  · rw [countKey_append, hc2]
    simp [countKey, List.countP_cons, List.countP_nil]
  · rw [getFirst_append_right _ _ _ hc2]
    simp [getFirst, List.find?_cons]
  · rw [countKey_append, hc3]
    simp [countKey, List.countP_cons, List.countP_nil]
  · rw [getFirst_append_right _ _ _ hc3]
    simp [getFirst, List.find?_cons]
  · rw [countKey_append, hc4]
    simp [countKey, List.countP_cons, List.countP_nil]
  · rw [getFirst_append_right _ _ _ hc4]
    simp [getFirst, List.find?_cons]

/-- Claim C10: when a template's parsed slots list mixes string and numeric
entries, the string entries take precedence: the expansion yields exactly
one window instance per string entry (its slotId, in list order), every
numeric (legacy) entry is silently ignored (no instance carries a legacy
slot number), and the single `slotId` field is not consulted — replacing it
leaves the expansion unchanged. -/
theorem C10_string_entries_precedence (parse : String → Option UrlModel)
    (ser : UrlModel → String) (slotOptions : String → Option SlotOption)
    (base : ℕ) (t : Template) (l : List SlotEntry)
    (hl : t.slotsIds = some l)
    (hstr : ∃ s, SlotEntry.str s ∈ l) (hnum : ∃ n, SlotEntry.num n ∈ l) :
    (expandTemplate parse ser slotOptions base t).map (·.slotId)
        = (strEntries l).map some ∧
    (∀ inst ∈ expandTemplate parse ser slotOptions base t,
        inst.slotLegacy = none) ∧
    (∀ sid, expandTemplate parse ser slotOptions base
        { t with slotId := sid } = expandTemplate parse ser slotOptions base t) := by
  obtain ⟨s, hsl⟩ := hstr
  have hle : l.isEmpty = false := by
    cases l with
    | nil => cases hsl
    | cons a as => rfl
  have hsmem : s ∈ strEntries l := by
    unfold strEntries
    rw [List.mem_filterMap]
    exact ⟨SlotEntry.str s, hsl, rfl⟩
  have hse : (strEntries l).isEmpty = false := by
    cases hstre : strEntries l with
    | nil => rw [hstre] at hsmem; cases hsmem
    | cons a as => rfl
  have hexp : ∀ sid', expandTemplate parse ser slotOptions base
      { t with slotId := sid' }
      = (strEntries l).map fun sid =>
        let so := slotOptions sid
        let offset0 := t.offsetHours.getD ((so.map (·.offsetHours)).getD 0)
        let duration0 :=
          t.durationHours.getD ((so.map (·.durationHours)).getD (SLOT_DURATION_HOURS : ℚ))
        let w := slotWindow base offset0 duration0
        { slotId := some sid, slotLegacy := none, docId := t.id
          url := (addDateParamsToUrl parse ser
                    (cleanUrlRemoveDateParams parse ser t.url).1
                    (msToDateTime w.start) (msToDateTime w.stop)).1
          label := t.label, offset := some w.offsetUsed
          duration := some w.durationUsed, raw := false : TemplateUrl } := by
    intro sid'
    unfold expandTemplate
    simp only [hl, hle, hse, Bool.false_eq_true, if_false, Bool.not_false,
      Bool.true_or, if_true, List.map_nil, List.append_nil]
  have hexp0 : expandTemplate parse ser slotOptions base t
      = (strEntries l).map fun sid =>
        let so := slotOptions sid
        let offset0 := t.offsetHours.getD ((so.map (·.offsetHours)).getD 0)
        let duration0 :=
          t.durationHours.getD ((so.map (·.durationHours)).getD (SLOT_DURATION_HOURS : ℚ))
        let w := slotWindow base offset0 duration0
        { slotId := some sid, slotLegacy := none, docId := t.id
          url := (addDateParamsToUrl parse ser
                    (cleanUrlRemoveDateParams parse ser t.url).1
                    (msToDateTime w.start) (msToDateTime w.stop)).1
          label := t.label, offset := some w.offsetUsed
          duration := some w.durationUsed, raw := false : TemplateUrl } := by
    unfold expandTemplate
    simp only [hl, hle, hse, Bool.false_eq_true, if_false, Bool.not_false,
      Bool.true_or, if_true, List.map_nil, List.append_nil]
  refine ⟨?_, ?_, ?_⟩
  · rw [hexp0, List.map_map]
    rfl
  · intro inst hinst
    rw [hexp0] at hinst
    rw [List.mem_map] at hinst
    obtain ⟨sid, _, rfl⟩ := hinst
    rfl
  · intro sid
    rw [hexp0, hexp sid]

/-- Witness for C10 on a template whose slots list is `[str "A", num 2]`
and whose `slotId` is set (and ignored). -/
theorem C10_witness :
    (expandTemplate (fun _ => none) (fun _ => "") (fun _ => none) 0
        { id := "t1", label := none, url := "u", slotId := some "Z",
          slotsIds := some [SlotEntry.str "A", SlotEntry.num 2], slot := none,
          offsetHours := none, durationHours := none }).map (·.slotId)
      = (strEntries [SlotEntry.str "A", SlotEntry.num 2]).map some :=
  (C10_string_entries_precedence (fun _ => none) (fun _ => "") (fun _ => none) 0
    { id := "t1", label := none, url := "u", slotId := some "Z",
      slotsIds := some [SlotEntry.str "A", SlotEntry.num 2], slot := none,
      offsetHours := none, durationHours := none }
    [SlotEntry.str "A", SlotEntry.num 2] rfl
    ⟨"A", by simp⟩ ⟨2, by simp⟩).1

end TuroScraper
